import Mathlib

/-!
# Verification of the return-linter analysis (src/returnlinter.go)

A shallow embedding of the `returnlinter` Go analyzer.  The analyzer walks
function declarations of one compilation unit; for each declaration whose
signature matches the middleware pattern (one result of type `http.Handler`)
it walks the body with `ast.Inspect` looking for `http.HandlerFunc(funcLit)`
adapter calls, and checks the literal's body: every expression statement that
is a call with selector name `WriteHeader` must be immediately followed, in
the same statement list, by a return statement; otherwise a diagnostic is
reported at the statement's position.

The Go AST fragment the analyzer consumes is embedded as the mutually
inductive types `Expr`/`Stmt` below.  Modelling conventions, each justified
by an invariant of `go/parser` output:
* `token.Pos` positions are `Nat` (only carried into diagnostics).
* A `*ast.BlockStmt` field that the parser always allocates (the body of an
  if/for/range/switch/select statement, a function literal's body) is a plain
  `List Stmt`; the one nil-able block pointer the analyzer actually receives
  from parsed code, `FuncDecl.Body` (nil for a bodyless declaration), is an
  `Option (List Stmt)`.  `checkBlockForWriteHeader`'s explicit nil guard is
  kept by giving it an `Option (List Stmt)` argument.
* Sub-expressions that cannot contain statements or calls relevant to any
  checked property (loop conditions, switch tags, init statements, field
  names) are elided.
* A Go runtime panic (nil-pointer dereference) is an `Except.error`.
-/

namespace ReturnLinter

mutual

/-- Expressions of the embedded Go AST fragment: identifiers, selector
expressions `x.sel`, call expressions `fn(args)`, function literals (whose
body, always present in parsed code, is its statement list), and basic
literals. -/
inductive Expr : Type where
  | ident (name : String)
  | selectorExpr (x : Expr) (sel : String)
  | callExpr (fn : Expr) (args : List Expr)
  | funcLit (body : List Stmt)
  | basicLit (value : String)

/-- Statements of the embedded Go AST fragment.  `exprStmt` carries the
statement's source position (reported in diagnostics).  `caseClause` and
`commClause` are the case arms of switch/type-switch statements and the
communication clauses of select statements; both appear only inside the
corresponding statement's body block, mirroring `go/ast`. -/
inductive Stmt : Type where
  | exprStmt (pos : Nat) (x : Expr)
  | returnStmt (results : List Expr)
  | ifStmt (cond : Expr) (body : List Stmt) (els : Option Stmt)
  | blockStmt (list : List Stmt)
  | forStmt (body : List Stmt)
  | rangeStmt (body : List Stmt)
  | switchStmt (body : List Stmt)
  | typeSwitchStmt (body : List Stmt)
  | selectStmt (body : List Stmt)
  | caseClause (body : List Stmt)
  | commClause (body : List Stmt)
  | deferStmt (call : Expr)
  | goStmt (call : Expr)
  | assignStmt (lhs : List Expr) (rhs : List Expr)
  | declStmt
  | emptyStmt

end

/-- An `ast.Field` of a parameter or result list: only its type matters to
the analyzer. -/
structure Field where
  typ : Expr

/-- An `ast.FuncDecl`: name, parameter list (`Type.Params.List`), result list
(`Type.Results`, nil-able as in `go/ast`), and body (nil for a declaration
without a body, e.g. one implemented in assembly). -/
structure FuncDecl where
  name : String
  params : List Field
  results : Option (List Field)
  body : Option (List Stmt)

/-- A reported diagnostic: source position and message, as handed to
`pass.Reportf`. -/
structure Diag where
  pos : Nat
  msg : String
deriving DecidableEq

/-- The fixed message of every diagnostic the analyzer reports. -/
def diagMessage : String :=
  "WriteHeader call not immediately followed by return statement"

/-- `isHTTPHandler` (src/returnlinter.go:70-83): the type expression is a
selector whose `X` is the identifier `http` and whose `Sel` is `Handler`. -/
def isHTTPHandler (expr : Expr) : Bool :=
  match expr with
  | Expr.selectorExpr (Expr.ident name) sel => name == "http" && sel == "Handler"
  | _ => false

/-- `isMiddlewarePattern` (src/returnlinter.go:56-67): false when the result
list is nil or does not have exactly one entry, false when that entry's type
is not `http.Handler`, true otherwise.  (Parameters are never inspected.) -/
def isMiddlewarePattern (funcDecl : FuncDecl) : Bool :=
  match funcDecl.results with
  | none => false
  | some resultList =>
    match resultList with
    | [r] => isHTTPHandler r.typ
    | _ => false

/-- `isHandlerFuncCall` (src/returnlinter.go:85-97): the call's `Fun` is a
selector whose `X` is the identifier `http` and whose `Sel` is `HandlerFunc`.
The source receives a `*ast.CallExpr`; the non-call patterns here are
unreachable at its call site, which has already matched a call. -/
def isHandlerFuncCall (callExpr : Expr) : Bool :=
  match callExpr with
  | Expr.callExpr (Expr.selectorExpr (Expr.ident name) sel) _ =>
      name == "http" && sel == "HandlerFunc"
  | _ => false

/-- `IsWriteHeaderCall` (src/returnlinter.go:169-182): the expression is a
call whose `Fun` is a selector with `Sel.Name == "WriteHeader"`, whatever the
receiver expression. -/
def IsWriteHeaderCall (expr : Expr) : Bool :=
  match expr with
  | Expr.callExpr (Expr.selectorExpr _ sel) _ => sel == "WriteHeader"
  | _ => false

/-- `IsFollowedByReturn` (src/returnlinter.go:184-193): false when no
statement exists at `currentIndex + 1`, otherwise whether the statement at
`currentIndex + 1` is a return statement. -/
def IsFollowedByReturn (stmts : List Stmt) (currentIndex : Nat) : Bool :=
  if stmts.length ≤ currentIndex + 1 then
    false
  else
    match stmts[currentIndex + 1]? with
    | some (Stmt.returnStmt _) => true
    | _ => false

/-- `isEmptyStmt` (src/returnlinter.go:195-198), unused by the analysis but
part of the package surface. -/
def isEmptyStmt (stmt : Stmt) : Bool :=
  match stmt with
  | Stmt.emptyStmt => true
  | _ => false

mutual

/-- The loop body of `checkBlockForWriteHeader` (src/returnlinter.go:156-165):
`for i, stmt := range block.List`, reporting each expression statement that is
a `WriteHeader` call and is not followed by a return at `i + 1` in `all`
(the full list), then recursing into the statement.  `rest` is the suffix of
`all` starting at index `i`; the function is entered at `(all, 0, all)`. -/
def checkScan (all : List Stmt) (i : Nat) (rest : List Stmt) : List Diag :=
  match rest with
  | [] => []
  | stmt :: rest' =>
    (match stmt with
     | Stmt.exprStmt p x =>
       if IsWriteHeaderCall x && ! IsFollowedByReturn all i then
         [⟨p, diagMessage⟩]
       else []
     | _ => []) ++ checkNestedWriteHeader stmt ++ checkScan all (i + 1) rest'
termination_by (sizeOf rest, 0)

/-- `checkNestedWriteHeader` (src/returnlinter.go:118-149): recursion over the
statement's shape.  If-statements recurse into the body block and, when
present, the else statement; plain blocks, loops, switches, type switches and
selects recurse into their body block; a case clause scans its own statement
list with the same report-and-recurse loop.  Every other shape — including a
communication clause of a select — falls to the final catch-all case and is
not descended into. -/
def checkNestedWriteHeader (stmt : Stmt) : List Diag :=
  match stmt with
  | Stmt.ifStmt _ body (some e) =>
    checkBlockForWriteHeader (some body) ++ checkNestedWriteHeader e
  | Stmt.ifStmt _ body none => checkBlockForWriteHeader (some body)
  | Stmt.blockStmt l => checkBlockForWriteHeader (some l)
  | Stmt.forStmt body => checkBlockForWriteHeader (some body)
  | Stmt.rangeStmt body => checkBlockForWriteHeader (some body)
  | Stmt.switchStmt body => checkBlockForWriteHeader (some body)
  | Stmt.typeSwitchStmt body => checkBlockForWriteHeader (some body)
  | Stmt.selectStmt body => checkBlockForWriteHeader (some body)
  | Stmt.caseClause body => caseScan body 0 body
  | _ => []
termination_by (sizeOf stmt, 1)

/-- The loop in the `*ast.CaseClause` arm of `checkNestedWriteHeader`
(src/returnlinter.go:137-147): the same report-and-recurse loop as
`checkScan`, over the clause's own statement list. -/
def caseScan (all : List Stmt) (i : Nat) (rest : List Stmt) : List Diag :=
  match rest with
  | [] => []
  | caseStmt :: rest' =>
    (match caseStmt with
     | Stmt.exprStmt p x =>
       if IsWriteHeaderCall x && ! IsFollowedByReturn all i then
         [⟨p, diagMessage⟩]
       else []
     | _ => []) ++ checkNestedWriteHeader caseStmt ++ caseScan all (i + 1) rest'
termination_by (sizeOf rest, 0)

/-- `checkBlockForWriteHeader` (src/returnlinter.go:152-166): returns nothing
for a nil block, otherwise runs the report-and-recurse loop over the block's
statement list. -/
def checkBlockForWriteHeader (block : Option (List Stmt)) : List Diag :=
  match block with
  | none => []
  | some l => checkScan l 0 l
termination_by (sizeOf block, 0)

end

/-- The loop body of `checkHandlerBody` (src/returnlinter.go:100-115): the
source duplicates the report-and-recurse loop of `checkBlockForWriteHeader`,
so the model does too. -/
def hbScan (all : List Stmt) (i : Nat) (rest : List Stmt) : List Diag :=
  match rest with
  | [] => []
  | stmt :: rest' =>
    (match stmt with
     | Stmt.exprStmt p x =>
       if IsWriteHeaderCall x && ! IsFollowedByReturn all i then
         [⟨p, diagMessage⟩]
       else []
     | _ => []) ++ checkNestedWriteHeader stmt ++ hbScan all (i + 1) rest'

/-- `checkHandlerBody` (src/returnlinter.go:100-115): the adjacency check on
a matched closure body (a function literal's body, always present in parsed
code). -/
def checkHandlerBody (body : List Stmt) : List Diag :=
  hbScan body 0 body

mutual

/-- The `ast.Inspect` walk inside `run` (src/returnlinter.go:35-48), on an
expression node.  `ast.Inspect` performs a preorder traversal; the callback
acts only on call expressions: when the call is `http.HandlerFunc(...)` and
its first argument is a function literal, `checkHandlerBody` runs on the
literal's body (the diagnostics are reported at that moment, before the walk
descends into the call's children).  The callback returns true, so the walk
always continues into every child, including the function literal itself. -/
def inspectExpr (e : Expr) : List Diag :=
  match e with
  | Expr.ident _ => []
  | Expr.basicLit _ => []
  | Expr.selectorExpr x _ => inspectExpr x
  | Expr.callExpr fn args =>
    (if isHandlerFuncCall (Expr.callExpr fn args) then
       match args with
       | Expr.funcLit body :: _ => checkHandlerBody body
       | _ => []
     else []) ++ inspectExpr fn ++ inspectExprs args
  | Expr.funcLit body => inspectStmts body

/-- The `ast.Inspect` walk over a list of expressions, in order. -/
def inspectExprs (es : List Expr) : List Diag :=
  match es with
  | [] => []
  | e :: rest => inspectExpr e ++ inspectExprs rest

/-- The `ast.Inspect` walk on a statement node: the callback ignores
statements, so this only dispatches the traversal into the statement's
children (its sub-expressions and nested statement lists), in the source
order `ast.Walk` uses. -/
def inspectStmt (s : Stmt) : List Diag :=
  match s with
  | Stmt.exprStmt _ x => inspectExpr x
  | Stmt.returnStmt results => inspectExprs results
  | Stmt.ifStmt cond body (some e) =>
    inspectExpr cond ++ inspectStmts body ++ inspectStmt e
  | Stmt.ifStmt cond body none => inspectExpr cond ++ inspectStmts body
  | Stmt.blockStmt l => inspectStmts l
  | Stmt.forStmt body => inspectStmts body
  | Stmt.rangeStmt body => inspectStmts body
  | Stmt.switchStmt body => inspectStmts body
  | Stmt.typeSwitchStmt body => inspectStmts body
  | Stmt.selectStmt body => inspectStmts body
  | Stmt.caseClause body => inspectStmts body
  | Stmt.commClause body => inspectStmts body
  | Stmt.deferStmt call => inspectExpr call
  | Stmt.goStmt call => inspectExpr call
  | Stmt.assignStmt lhs rhs => inspectExprs lhs ++ inspectExprs rhs
  | Stmt.declStmt => []
  | Stmt.emptyStmt => []

/-- The `ast.Inspect` walk over a statement list, in order. -/
def inspectStmts (ss : List Stmt) : List Diag :=
  match ss with
  | [] => []
  | s :: rest => inspectStmt s ++ inspectStmts rest

end

mutual

/-- Specification-side closure locator (spec section 4.2): the bodies of all
adapter calls — call expressions whose callee is the qualified name
`http.HandlerFunc` and whose first argument is a function literal — in the
same preorder the `ast.Inspect` walk of `run` visits call expressions. -/
def adapterBodiesExpr (e : Expr) : List (List Stmt) :=
  match e with
  | Expr.ident _ => []
  | Expr.basicLit _ => []
  | Expr.selectorExpr x _ => adapterBodiesExpr x
  | Expr.callExpr fn args =>
    (if isHandlerFuncCall (Expr.callExpr fn args) then
       match args with
       | Expr.funcLit body :: _ => [body]
       | _ => []
     else []) ++ adapterBodiesExpr fn ++ adapterBodiesExprs args
  | Expr.funcLit body => adapterBodiesStmts body

/-- Specification-side closure locator, over a list of expressions. -/
def adapterBodiesExprs (es : List Expr) : List (List Stmt) :=
  match es with
  | [] => []
  | e :: rest => adapterBodiesExpr e ++ adapterBodiesExprs rest

/-- Specification-side closure locator, on a statement node. -/
def adapterBodiesStmt (s : Stmt) : List (List Stmt) :=
  match s with
  | Stmt.exprStmt _ x => adapterBodiesExpr x
  | Stmt.returnStmt results => adapterBodiesExprs results
  | Stmt.ifStmt cond body (some e) =>
    adapterBodiesExpr cond ++ adapterBodiesStmts body ++ adapterBodiesStmt e
  | Stmt.ifStmt cond body none => adapterBodiesExpr cond ++ adapterBodiesStmts body
  | Stmt.blockStmt l => adapterBodiesStmts l
  | Stmt.forStmt body => adapterBodiesStmts body
  | Stmt.rangeStmt body => adapterBodiesStmts body
  | Stmt.switchStmt body => adapterBodiesStmts body
  | Stmt.typeSwitchStmt body => adapterBodiesStmts body
  | Stmt.selectStmt body => adapterBodiesStmts body
  | Stmt.caseClause body => adapterBodiesStmts body
  | Stmt.commClause body => adapterBodiesStmts body
  | Stmt.deferStmt call => adapterBodiesExpr call
  | Stmt.goStmt call => adapterBodiesExpr call
  | Stmt.assignStmt lhs rhs => adapterBodiesExprs lhs ++ adapterBodiesExprs rhs
  | Stmt.declStmt => []
  | Stmt.emptyStmt => []

/-- Specification-side closure locator, over a statement list. -/
def adapterBodiesStmts (ss : List Stmt) : List (List Stmt) :=
  match ss with
  | [] => []
  | s :: rest => adapterBodiesStmt s ++ adapterBodiesStmts rest

end

/-- The Go runtime's message for a nil-pointer dereference, raised when
`ast.Inspect` (src/returnlinter.go:35) is handed a nil `*ast.BlockStmt`:
`ast.Walk` reads `n.List` from the nil pointer. -/
def nilPanicMessage : String :=
  "runtime error: invalid memory address or nil pointer dereference"

/-- The body of the `inspect.Preorder` callback in `run`
(src/returnlinter.go:25-49) for one function declaration: return without
diagnostics when the signature does not match the middleware pattern,
otherwise run the `ast.Inspect` walk on the declaration's body.  A
declaration without a body (legal Go, e.g. a function implemented in
assembly) hands `ast.Inspect` a nil `*ast.BlockStmt`, which panics. -/
def runFuncDecl (funcDecl : FuncDecl) : Except String (List Diag) :=
  if ! isMiddlewarePattern funcDecl then Except.ok []
  else
    match funcDecl.body with
    | none => Except.error nilPanicMessage
    | some body => Except.ok (inspectStmts body)

/-- `run` (src/returnlinter.go:17-52) over one compilation unit:
`inspect.Preorder` visits every function declaration in source order; the
diagnostics reported for each are concatenated.  A panic while processing one
declaration aborts the whole analysis. -/
def run (decls : List FuncDecl) : Except String (List Diag) :=
  match decls with
  | [] => Except.ok []
  | d :: rest => do
    let here ← runFuncDecl d
    let later ← run rest
    Except.ok (here ++ later)

/-- Specification-side adjacency test, following the spec's words (section
4.3 rule 2): the statement at index `i + 1` exists in the same list and is a
return statement. -/
def specNextIsReturn (l : List Stmt) (i : Nat) : Bool :=
  match l[i + 1]? with
  | some (Stmt.returnStmt _) => true
  | _ => false

/-- Specification-side scan of one statement list, following the spec's
words (section 4.3 rules 1-3): each candidate — an expression statement
whose expression is a `WriteHeader` call — at index `i` is a violation
unless the statement at `i + 1` exists in the same list and is a return
statement, and every statement is also recursively inspected according to
its shape.  `rest` is the suffix of `l` starting at index `i`. -/
def specScanFrom (l : List Stmt) (i : Nat) (rest : List Stmt) : List Diag :=
  match rest with
  | [] => []
  | s :: rest' =>
    (match s with
     | Stmt.exprStmt p x =>
       if IsWriteHeaderCall x && ! specNextIsReturn l i then
         [⟨p, diagMessage⟩]
       else []
     | _ => []) ++ checkNestedWriteHeader s ++ specScanFrom l (i + 1) rest'

/-- Specification-side scan of a whole statement list. -/
def specScan (l : List Stmt) : List Diag :=
  specScanFrom l 0 l

/-! ## Helper lemmas -/

/-- The code's bounded adjacency test agrees with the spec-side one at every
index of every list: the extra length guard in `IsFollowedByReturn` is
redundant with `l[i + 1]? = none`. -/
theorem followedByReturn_eq_spec (l : List Stmt) (i : Nat) :
    IsFollowedByReturn l i = specNextIsReturn l i := by
  unfold IsFollowedByReturn specNextIsReturn
  by_cases h : l.length ≤ i + 1
  · rw [if_pos h, List.getElem?_eq_none h]
  · rw [if_neg h]

/-- The spec-side adjacency test holds exactly when a return statement sits
at index `i + 1` of the same list. -/
theorem specNextIsReturn_iff (l : List Stmt) (i : Nat) :
    specNextIsReturn l i = true ↔
      ∃ results, l[i + 1]? = some (Stmt.returnStmt results) := by
  unfold specNextIsReturn
  cases h : l[i + 1]? with
  | none => simp
  | some s => cases s <;> simp

/-- The loop of `checkBlockForWriteHeader` computes the spec-side scan. -/
theorem checkScan_eq_specScanFrom :
    ∀ (rest all : List Stmt) (i : Nat), checkScan all i rest = specScanFrom all i rest := by
  intro rest
  induction rest with
  | nil => intro all i; rw [checkScan.eq_1, specScanFrom.eq_1]
  | cons s r ih =>
    intro all i
    rw [checkScan.eq_def, specScanFrom.eq_def]
    simp only [followedByReturn_eq_spec, ih]

/-- The loop of the case-clause arm is the same loop as
`checkBlockForWriteHeader`'s. -/
theorem caseScan_eq_checkScan :
    ∀ (rest all : List Stmt) (i : Nat), caseScan all i rest = checkScan all i rest := by
  intro rest
  induction rest with
  | nil => intro all i; rw [caseScan.eq_1, checkScan.eq_1]
  | cons s r ih =>
    intro all i
    rw [caseScan.eq_def, checkScan.eq_def]
    simp only [ih]

/-- The loop of `checkHandlerBody` is the same loop as
`checkBlockForWriteHeader`'s. -/
theorem hbScan_eq_checkScan :
    ∀ (rest all : List Stmt) (i : Nat), hbScan all i rest = checkScan all i rest := by
  intro rest
  induction rest with
  | nil => intro all i; rw [hbScan.eq_1, checkScan.eq_1]
  | cons s r ih =>
    intro all i
    rw [hbScan.eq_def, checkScan.eq_def]
    simp only [ih]

/-- A type expression passes `isHTTPHandler` exactly when it is the selector
`http.Handler`. -/
theorem isHTTPHandler_iff (e : Expr) :
    isHTTPHandler e = true ↔ e = Expr.selectorExpr (Expr.ident "http") "Handler" := by
  cases e with
  | ident name => simp [isHTTPHandler]
  | selectorExpr x sel => cases x <;> simp [isHTTPHandler]
  | callExpr fn args => simp [isHTTPHandler]
  | funcLit body => simp [isHTTPHandler]
  | basicLit value => simp [isHTTPHandler]

/-- The callback's action at a call node equals the per-body checker mapped
over the adapter bodies the same call node contributes. -/
theorem adapterAction_eq (fn : Expr) (args : List Expr) :
    (if isHandlerFuncCall (Expr.callExpr fn args) then
       match args with
       | Expr.funcLit body :: _ => checkHandlerBody body
       | _ => []
     else []) =
    (((if isHandlerFuncCall (Expr.callExpr fn args) then
       match args with
       | Expr.funcLit body :: _ => [body]
       | _ => ([] : List (List Stmt))
     else []) : List (List Stmt)).map checkHandlerBody).flatten := by
  split
  · cases args with
    | nil => simp
    | cons a rest => cases a <;> simp
  · simp

/-- Strong induction on node size: the `ast.Inspect` walk of `run` computes,
node for node, the concatenation of `checkHandlerBody` over the adapter
bodies collected in preorder. -/
theorem inspect_eq_adapter_aux :
    ∀ n : Nat,
      (∀ e : Expr, sizeOf e < n →
        inspectExpr e = ((adapterBodiesExpr e).map checkHandlerBody).flatten) ∧
      (∀ es : List Expr, sizeOf es < n →
        inspectExprs es = ((adapterBodiesExprs es).map checkHandlerBody).flatten) ∧
      (∀ s : Stmt, sizeOf s < n →
        inspectStmt s = ((adapterBodiesStmt s).map checkHandlerBody).flatten) ∧
      (∀ ss : List Stmt, sizeOf ss < n →
        inspectStmts ss = ((adapterBodiesStmts ss).map checkHandlerBody).flatten) := by
  intro n
  induction n with
  | zero =>
    exact ⟨fun e h => absurd h (Nat.not_lt_zero _),
           fun es h => absurd h (Nat.not_lt_zero _),
           fun s h => absurd h (Nat.not_lt_zero _),
           fun ss h => absurd h (Nat.not_lt_zero _)⟩
  | succ n ih =>
    obtain ⟨ihE, ihEs, ihS, ihSs⟩ := ih
    refine ⟨?_, ?_, ?_, ?_⟩
    · intro e he
      cases e with
      | ident name => simp [inspectExpr, adapterBodiesExpr]
      | basicLit value => simp [inspectExpr, adapterBodiesExpr]
      | selectorExpr x sel =>
        have hx : sizeOf x < n := by simp at he; omega
        simp only [inspectExpr, adapterBodiesExpr]
        exact ihE x hx
      | callExpr fn args =>
        have hfn : sizeOf fn < n := by simp at he; omega
        have hargs : sizeOf args < n := by simp at he; omega
        simp only [inspectExpr, adapterBodiesExpr, List.map_append, List.flatten_append]
        rw [ihE fn hfn, ihEs args hargs, adapterAction_eq]
      | funcLit body =>
        have hb : sizeOf body < n := by simp at he; omega
        simp only [inspectExpr, adapterBodiesExpr]
        exact ihSs body hb
    · intro es hes
      cases es with
      | nil => simp [inspectExprs, adapterBodiesExprs]
      | cons e rest =>
        have h1 : sizeOf e < n := by simp at hes; omega
        have h2 : sizeOf rest < n := by simp at hes; omega
        simp only [inspectExprs, adapterBodiesExprs, List.map_append, List.flatten_append]
        rw [ihE e h1, ihEs rest h2]
    · intro s hs
      cases s with
      | exprStmt p x =>
        have hx : sizeOf x < n := by simp at hs; omega
        simp only [inspectStmt, adapterBodiesStmt]
        exact ihE x hx
      | returnStmt results =>
        have hr : sizeOf results < n := by simp at hs; omega
        simp only [inspectStmt, adapterBodiesStmt]
        exact ihEs results hr
      | ifStmt cond body els =>
        cases els with
        | some e =>
          have hc : sizeOf cond < n := by simp at hs; omega
          have hb : sizeOf body < n := by simp at hs; omega
          have he : sizeOf e < n := by simp at hs; omega
          simp only [inspectStmt, adapterBodiesStmt, List.map_append, List.flatten_append]
          rw [ihE cond hc, ihSs body hb, ihS e he]
        | none =>
          have hc : sizeOf cond < n := by simp at hs; omega
          have hb : sizeOf body < n := by simp at hs; omega
          simp only [inspectStmt, adapterBodiesStmt, List.map_append, List.flatten_append]
          rw [ihE cond hc, ihSs body hb]
      | blockStmt l =>
        have hl : sizeOf l < n := by simp at hs; omega
        simp only [inspectStmt, adapterBodiesStmt]
        exact ihSs l hl
      | forStmt body =>
        have hb : sizeOf body < n := by simp at hs; omega
        simp only [inspectStmt, adapterBodiesStmt]
        exact ihSs body hb
      | rangeStmt body =>
        have hb : sizeOf body < n := by simp at hs; omega
        simp only [inspectStmt, adapterBodiesStmt]
        exact ihSs body hb
      | switchStmt body =>
        have hb : sizeOf body < n := by simp at hs; omega
        simp only [inspectStmt, adapterBodiesStmt]
        exact ihSs body hb
      | typeSwitchStmt body =>
        have hb : sizeOf body < n := by simp at hs; omega
        simp only [inspectStmt, adapterBodiesStmt]
        exact ihSs body hb
      | selectStmt body =>
        have hb : sizeOf body < n := by simp at hs; omega
        simp only [inspectStmt, adapterBodiesStmt]
        exact ihSs body hb
      | caseClause body =>
        have hb : sizeOf body < n := by simp at hs; omega
        simp only [inspectStmt, adapterBodiesStmt]
        exact ihSs body hb
      | commClause body =>
        have hb : sizeOf body < n := by simp at hs; omega
        simp only [inspectStmt, adapterBodiesStmt]
        exact ihSs body hb
      | deferStmt call =>
        have hc : sizeOf call < n := by simp at hs; omega
        simp only [inspectStmt, adapterBodiesStmt]
        exact ihE call hc
      | goStmt call =>
        have hc : sizeOf call < n := by simp at hs; omega
        simp only [inspectStmt, adapterBodiesStmt]
        exact ihE call hc
      | assignStmt lhs rhs =>
        have h1 : sizeOf lhs < n := by simp at hs; omega
        have h2 : sizeOf rhs < n := by simp at hs; omega
        simp only [inspectStmt, adapterBodiesStmt, List.map_append, List.flatten_append]
        rw [ihEs lhs h1, ihEs rhs h2]
      | declStmt => simp [inspectStmt, adapterBodiesStmt]
      | emptyStmt => simp [inspectStmt, adapterBodiesStmt]
    · intro ss hss
      cases ss with
      | nil => simp [inspectStmts, adapterBodiesStmts]
      | cons s rest =>
        have h1 : sizeOf s < n := by simp at hss; omega
        have h2 : sizeOf rest < n := by simp at hss; omega
        simp only [inspectStmts, adapterBodiesStmts, List.map_append, List.flatten_append]
        rw [ihS s h1, ihSs rest h2]

/-! ## Claims -/

/-- C1: on every scanned statement list — a matched closure body
(`checkHandlerBody`), a block reached by recursion (`checkBlockForWriteHeader`),
or a case arm's statement list (`checkNestedWriteHeader` on a case clause) —
a candidate at index `i` yields a diagnostic if and only if it is not the
case that a statement exists at index `i + 1` in the same list and is a
return statement: the code's adjacency test `IsFollowedByReturn` coincides
with the spec-side `specNextIsReturn` (which holds exactly when a return
statement exists at `i + 1`), and all three scans compute the spec-side scan
`specScan`, which emits a diagnostic for a candidate precisely when
`specNextIsReturn` fails there and recurses into nested shapes.  In
particular a candidate that is last in its list always yields a diagnostic
(`l[i + 1]? = none`), and a return in an enclosing or sibling list never
satisfies an inner candidate (only the candidate's own list is consulted). -/
theorem writeHeader_adjacency_rule :
    ∀ (l : List Stmt) (i : Nat),
      (IsFollowedByReturn l i = specNextIsReturn l i) ∧
      (specNextIsReturn l i = true ↔
        ∃ results, l[i + 1]? = some (Stmt.returnStmt results)) ∧
      checkHandlerBody l = specScan l ∧
      checkBlockForWriteHeader (some l) = specScan l ∧
      checkNestedWriteHeader (Stmt.caseClause l) = specScan l := by
  intro l i
  refine ⟨followedByReturn_eq_spec l i, specNextIsReturn_iff l i, ?_, ?_, ?_⟩
  · rw [checkHandlerBody, hbScan_eq_checkScan, checkScan_eq_specScanFrom, specScan]
  · rw [checkBlockForWriteHeader, checkScan_eq_specScanFrom, specScan]
  · rw [checkNestedWriteHeader, caseScan_eq_checkScan, checkScan_eq_specScanFrom, specScan]

/-- C9: the two block-scanning routines are equivalent — `checkHandlerBody`
on a closure body emits exactly the diagnostics `checkBlockForWriteHeader`
emits on the same non-nil block, in the same order, with the same positions
and messages. -/
theorem checkHandlerBody_eq_checkBlockForWriteHeader :
    ∀ l : List Stmt, checkHandlerBody l = checkBlockForWriteHeader (some l) := by
  intro l
  rw [checkHandlerBody, hbScan_eq_checkScan, checkBlockForWriteHeader]

/-- C10: the recursive descent of `checkNestedWriteHeader` is closed over the
fixed set of shapes if / plain block / for / range / switch / type-switch /
select / case clause; every other statement shape — an expression statement,
a return, a defer, a go, an assignment (whatever its right-hand side, e.g. a
function literal containing `WriteHeader` calls), a declaration, an empty
statement, or a select communication clause — is never descended into and
contributes no diagnostics. -/
theorem checkNested_fixed_shapes :
    ∀ (p : Nat) (x call : Expr) (results lhs rhs : List Expr) (body : List Stmt),
      checkNestedWriteHeader (Stmt.exprStmt p x) = [] ∧
      checkNestedWriteHeader (Stmt.returnStmt results) = [] ∧
      checkNestedWriteHeader (Stmt.deferStmt call) = [] ∧
      checkNestedWriteHeader (Stmt.goStmt call) = [] ∧
      checkNestedWriteHeader (Stmt.assignStmt lhs rhs) = [] ∧
      checkNestedWriteHeader Stmt.declStmt = [] ∧
      checkNestedWriteHeader Stmt.emptyStmt = [] ∧
      checkNestedWriteHeader (Stmt.commClause body) = [] := by
  intro p x call results lhs rhs body
  refine ⟨?_, ?_, ?_, ?_, ?_, ?_, ?_, ?_⟩ <;> simp [checkNestedWriteHeader]

/-- C3, counterexample: a function declaration with an empty parameter list
(so certainly not exactly one `http.Handler` parameter) but exactly one
`http.Handler` result is accepted by the signature matcher — the claim that
the matcher requires exactly one `http.Handler` parameter is false, because
`isMiddlewarePattern` never inspects the parameter list. -/
theorem isMiddlewarePattern_no_params_true :
    isMiddlewarePattern
      (FuncDecl.mk "Middleware" []
        (some [Field.mk (Expr.selectorExpr (Expr.ident "http") "Handler")])
        (some [])) = true := by
  simp [isMiddlewarePattern, isHTTPHandler]

/-- C3, amended: the signature matcher ignores the parameter list (and the
name and body) entirely — its verdict depends only on the result list, so
any two declarations with the same result list get the same verdict,
whatever their parameters. -/
theorem isMiddlewarePattern_ignores_params :
    ∀ (name name' : String) (params params' : List Field)
      (results : Option (List Field)) (body body' : Option (List Stmt)),
      isMiddlewarePattern (FuncDecl.mk name params results body) =
        isMiddlewarePattern (FuncDecl.mk name' params' results body') := by
  intro name name' params params' results body body'
  rfl

/-- C4: the signature matcher accepts a declaration if and only if its
result list has exactly one entry whose type is the selector `http.Handler`;
and a declaration the matcher rejects yields zero diagnostics from the
analysis, whatever its body. -/
theorem isMiddlewarePattern_spec :
    ∀ d : FuncDecl,
      (isMiddlewarePattern d = true ↔
        ∃ f : Field, d.results = some [f] ∧
          f.typ = Expr.selectorExpr (Expr.ident "http") "Handler") ∧
      (isMiddlewarePattern d = false → runFuncDecl d = Except.ok []) := by
  intro d
  constructor
  · obtain ⟨name, params, results, body⟩ := d
    cases results with
    | none => simp [isMiddlewarePattern]
    | some resultList =>
      cases resultList with
      | nil => simp [isMiddlewarePattern]
      | cons r tail =>
        cases tail with
        | nil => cases r with
          | mk typ => simp [isMiddlewarePattern, isHTTPHandler_iff]
        | cons r2 tail2 => simp [isMiddlewarePattern]
  · intro h
    simp [runFuncDecl, h]

/-- C5: case arms of a switch are checked independently — a matched
middleware whose closure body is a switch whose first arm has a `WriteHeader`
call (position 10) followed by a non-return statement and whose second arm
has a `WriteHeader` call immediately followed by a return yields exactly one
diagnostic, positioned at the first arm's `WriteHeader` call. -/
theorem switch_arms_independent :
    runFuncDecl
      (FuncDecl.mk "Middleware"
        [Field.mk (Expr.selectorExpr (Expr.ident "http") "Handler")]
        (some [Field.mk (Expr.selectorExpr (Expr.ident "http") "Handler")])
        (some [Stmt.returnStmt
          [Expr.callExpr (Expr.selectorExpr (Expr.ident "http") "HandlerFunc")
            [Expr.funcLit
              [Stmt.switchStmt
                [Stmt.caseClause
                  [Stmt.exprStmt 10 (Expr.callExpr
                    (Expr.selectorExpr (Expr.ident "w") "WriteHeader")
                    [Expr.basicLit "200"]),
                   Stmt.exprStmt 11 (Expr.callExpr
                    (Expr.selectorExpr (Expr.ident "w") "Write")
                    [Expr.basicLit "OK"])],
                 Stmt.caseClause
                  [Stmt.exprStmt 20 (Expr.callExpr
                    (Expr.selectorExpr (Expr.ident "w") "WriteHeader")
                    [Expr.basicLit "201"]),
                   Stmt.returnStmt []]]]]]])) =
      Except.ok [Diag.mk 10 diagMessage] := by
  simp [runFuncDecl, isMiddlewarePattern, isHTTPHandler, inspectStmts, inspectStmt,
    inspectExprs, inspectExpr, isHandlerFuncCall, checkHandlerBody, hbScan,
    checkNestedWriteHeader, caseScan, checkBlockForWriteHeader, checkScan,
    IsWriteHeaderCall, IsFollowedByReturn]

/-- C6: the `ast.Inspect` walk of `run` does not stop after the first
adapter call — on every statement list it computes exactly the concatenation
of `checkHandlerBody` over the bodies of all adapter calls
(`http.HandlerFunc` calls whose first argument is a function literal)
collected in preorder; consequently a matched declaration with a body
reports the union, in order, of the diagnostics of every adapter call's
literal body. -/
theorem run_checks_every_adapter :
    (∀ ss : List Stmt,
      inspectStmts ss = ((adapterBodiesStmts ss).map checkHandlerBody).flatten) ∧
    ∀ (d : FuncDecl) (body : List Stmt),
      isMiddlewarePattern d = true → d.body = some body →
      runFuncDecl d =
        Except.ok (((adapterBodiesStmts body).map checkHandlerBody).flatten) := by
  have h1 : ∀ ss : List Stmt,
      inspectStmts ss = ((adapterBodiesStmts ss).map checkHandlerBody).flatten :=
    fun ss => (inspect_eq_adapter_aux (sizeOf ss + 1)).2.2.2 ss (Nat.lt_succ_self _)
  refine ⟨h1, ?_⟩
  intro d body hm hb
  simp [runFuncDecl, hm, hb, h1 body]

/-- C6 witness: a matched middleware whose body contains two adapter calls —
one whose closure violates the rule at position 10, one whose closure
violates it at position 20 — reports both diagnostics, the union over all
adapter calls. -/
theorem run_checks_every_adapter_witness :
    runFuncDecl
      (FuncDecl.mk "Middleware"
        [Field.mk (Expr.selectorExpr (Expr.ident "http") "Handler")]
        (some [Field.mk (Expr.selectorExpr (Expr.ident "http") "Handler")])
        (some [Stmt.exprStmt 1 (Expr.callExpr
                (Expr.selectorExpr (Expr.ident "http") "HandlerFunc")
                [Expr.funcLit [Stmt.exprStmt 10 (Expr.callExpr
                  (Expr.selectorExpr (Expr.ident "w") "WriteHeader")
                  [Expr.basicLit "200"])]]),
               Stmt.returnStmt [Expr.callExpr
                (Expr.selectorExpr (Expr.ident "http") "HandlerFunc")
                [Expr.funcLit [Stmt.exprStmt 20 (Expr.callExpr
                  (Expr.selectorExpr (Expr.ident "w") "WriteHeader")
                  [Expr.basicLit "500"])]]]])) =
      Except.ok (((adapterBodiesStmts
        [Stmt.exprStmt 1 (Expr.callExpr
          (Expr.selectorExpr (Expr.ident "http") "HandlerFunc")
          [Expr.funcLit [Stmt.exprStmt 10 (Expr.callExpr
            (Expr.selectorExpr (Expr.ident "w") "WriteHeader")
            [Expr.basicLit "200"])]]),
         Stmt.returnStmt [Expr.callExpr
          (Expr.selectorExpr (Expr.ident "http") "HandlerFunc")
          [Expr.funcLit [Stmt.exprStmt 20 (Expr.callExpr
            (Expr.selectorExpr (Expr.ident "w") "WriteHeader")
            [Expr.basicLit "500"])]]]]).map checkHandlerBody).flatten) :=
  run_checks_every_adapter.2 _ _ (by simp [isMiddlewarePattern, isHTTPHandler]) rfl

/-- C2, evaluation at the failing input: a matched middleware whose closure
body is a select statement with one communication clause containing a
`WriteHeader` call (position 10) followed by a non-return statement yields
zero diagnostics — `checkNestedWriteHeader` has no case for a communication
clause, so the clause's statement list is never scanned, although the spec
requires the adjacency rule to apply there (and the otherwise-dead
`*ast.SelectStmt` arm of the code shows select support was intended). -/
theorem select_comm_clause_not_checked :
    runFuncDecl
      (FuncDecl.mk "Middleware"
        [Field.mk (Expr.selectorExpr (Expr.ident "http") "Handler")]
        (some [Field.mk (Expr.selectorExpr (Expr.ident "http") "Handler")])
        (some [Stmt.returnStmt
          [Expr.callExpr (Expr.selectorExpr (Expr.ident "http") "HandlerFunc")
            [Expr.funcLit
              [Stmt.selectStmt
                [Stmt.commClause
                  [Stmt.exprStmt 10 (Expr.callExpr
                    (Expr.selectorExpr (Expr.ident "w") "WriteHeader")
                    [Expr.basicLit "500"]),
                   Stmt.exprStmt 11 (Expr.callExpr
                    (Expr.selectorExpr (Expr.ident "w") "Write")
                    [Expr.basicLit "busy"])]]]]]])) =
      Except.ok [] := by
  simp [runFuncDecl, isMiddlewarePattern, isHTTPHandler, inspectStmts, inspectStmt,
    inspectExprs, inspectExpr, isHandlerFuncCall, checkHandlerBody, hbScan,
    checkNestedWriteHeader, caseScan, checkBlockForWriteHeader, checkScan,
    IsWriteHeaderCall, IsFollowedByReturn]

/-- C7, evaluation at the failing input: a function declaration with the
matched signature but no body (legal Go: a declaration implemented
elsewhere) makes the analysis panic — `run` hands the nil `*ast.BlockStmt`
to `ast.Inspect`, whose walk dereferences it — instead of tolerating the
degenerate shape as the claim requires.  Declarations the matcher rejects,
empty bodies, adapter calls with no arguments or a non-literal first
argument, and nested shapes are all tolerated; the absent body is not. -/
theorem run_panics_on_bodiless_matched_decl :
    run [FuncDecl.mk "Middleware"
        [Field.mk (Expr.selectorExpr (Expr.ident "http") "Handler")]
        (some [Field.mk (Expr.selectorExpr (Expr.ident "http") "Handler")])
        none] = Except.error nilPanicMessage := by
  simp [run, runFuncDecl, isMiddlewarePattern, isHTTPHandler, Bind.bind, Except.bind]

/-- C8: the analysis is deterministic — two runs on the same unchanged
declaration list produce the same outcome, hence identical diagnostic sets
(same positions, same messages, same count). -/
theorem run_deterministic :
    ∀ (decls : List FuncDecl) (r₁ r₂ : Except String (List Diag)),
      run decls = r₁ → run decls = r₂ → r₁ = r₂ := by
  intro decls r₁ r₂ h₁ h₂
  rw [← h₁, ← h₂]

/-- C8 witness: two runs on the empty compilation unit agree. -/
theorem run_deterministic_witness :
    (Except.ok [] : Except String (List Diag)) = Except.ok [] :=
  run_deterministic [] (Except.ok []) (Except.ok []) rfl rfl

end ReturnLinter
